import Mathlib

/-!
Shallow embedding of src/main.cpp: an asset-versioning window-capture tool.
The directory scanning, index resolution, startup sequence and capture loop of
main.cpp are translated into executable Lean definitions; native collaborators
(process enumeration, window snapshot, PNG encoding, preview/key wait) are
abstracted as explicit inputs, following their narrow contracts.
-/

namespace Oraker

/-- Decimal value of an ASCII digit character, modelling the character
arithmetic performed by std::stoi. -/
def digitVal (c : Char) : Nat := c.toNat - 48

/-- Numeric value of a list of decimal digit characters, most significant
first. -/
def digitsToNat (cs : List Char) : Nat :=
  cs.foldl (fun a c => a * 10 + digitVal c) 0

/-- Models std::stoi on the strings the program feeds it (they begin with a
decimal digit): parse the longest leading run of digits. Indices are modelled
as Nat, abstracting away the int range. -/
def stoiNat (s : String) : Nat := digitsToNat (s.data.takeWhile Char.isDigit)

/-- Models filename.substr(n): drop the first n characters (names are ASCII,
so byte positions coincide with character positions). -/
def substrFrom (s : String) (n : Nat) : String := ⟨s.data.drop n⟩

/-- Models filename.substr(0, filename.find_first_of of a dot): the part of
the name before the first dot, or the whole name when no dot occurs (npos). -/
def stemBeforeDot (s : String) : String := ⟨s.data.takeWhile (fun c => c != '.')⟩

/-- Structural worker for decimal rendering: emits the digits of n before acc,
recursing on an explicit fuel bound so that the kernel can evaluate it. -/
def toDecimalCore (fuel : Nat) (n : Nat) (acc : List Char) : List Char :=
  match fuel with
  | 0 => acc
  | fuel + 1 =>
    if n < 10 then Nat.digitChar (n % 10) :: acc
    else toDecimalCore fuel (n / 10) (Nat.digitChar (n % 10) :: acc)

/-- Models std::to_string on the size_t indices: canonical decimal rendering
with no leading zeros. The fuel n + 1 always suffices (a number has at most
n + 1 decimal digits). -/
def natToString (n : Nat) : String := ⟨toDecimalCore (n + 1) n []⟩

/-- Models the regex match against the pattern built from
versionDirectoryName followed by one or more digits anchored on both sides
(src/main.cpp lines 31-35), for a prefix free of regex metacharacters (the
program only ever passes the literal ver): the name is the prefix followed by
one or more decimal digits and nothing else. -/
def isVersion (versionDirectoryName name : String) : Bool :=
  (name.data.take versionDirectoryName.data.length == versionDirectoryName.data)
    && !(name.data.drop versionDirectoryName.data.length).isEmpty
    && (name.data.drop versionDirectoryName.data.length).all Char.isDigit

/-- Models findLastVersionIndex's extractIndex lambda (lines 37-39):
std::stoi of the filename with the prefix removed. -/
def extractVersionIndex (versionDirectoryName name : String) : Nat :=
  stoiNat (substrFrom name versionDirectoryName.data.length)

/-- Models the regex match in findLastImageIndex (lines 55-59) against the
pattern digits, dot, png anchored on both sides. The dot in the source
pattern is NOT escaped, so it matches any single character: a filename
matches exactly when it is one or more digits, then any one character, then
the three literal characters p, n, g. -/
def isImage (name : String) : Bool :=
  decide (5 ≤ name.data.length)
    && (name.data.take (name.data.length - 4)).all Char.isDigit
    && (name.data.drop (name.data.length - 3) == ['p', 'n', 'g'])

/-- Models findLastImageIndex's extractIndex lambda (lines 61-63): std::stoi
of the part of the filename before its first dot. -/
def extractImageIndex (name : String) : Nat := stoiNat (stemBeforeDot name)

/-- A directory entry as seen when iterating a version directory: a filename
plus whether the entry is a regular file. -/
structure FileEnt where
  name : String
  isRegularFile : Bool
  deriving DecidableEq, Repr

/-- A direct child of the asset root: its name, whether it is a directory,
and (when it is a directory) the entries listed inside it. -/
structure DirEnt where
  name : String
  isDirectory : Bool
  files : List FileEnt
  deriving DecidableEq, Repr

/-- The asset root directory: the list of its direct children in the order
the directory iterator yields them. -/
structure AssetRoot where
  entries : List DirEnt
  deriving DecidableEq, Repr

/-- Models std::ranges::max over the filtered-and-transformed range: C++
leaves the maximum of an empty range undefined and the program dies there, so
the embedding returns none on the empty range. -/
def rangesMax (l : List Nat) : Option Nat := l.max?

/-- The list of indices findLastVersionIndex takes the maximum of: directory
children whose name is the version prefix followed by digits, parsed. -/
def versionVals (fs : AssetRoot) (versionDirectoryName : String) : List Nat :=
  (((fs.entries.filter (fun e => e.isDirectory)).map (fun e => e.name)).filter
      (fun n => isVersion versionDirectoryName n)).map
    (fun n => extractVersionIndex versionDirectoryName n)

/-- Embeds findLastVersionIndex (src/main.cpp lines 30-47): enumerate the
direct children of the asset root, keep the directories whose name matches
the version pattern, parse the digit suffix of each, and take the maximum;
none models the undefined maximum over an empty match set, on which the
program aborts. -/
def findLastVersionIndex (fs : AssetRoot) (versionDirectoryName : String) : Option Nat :=
  rangesMax (versionVals fs versionDirectoryName)

/-- Embeds findLastVersionDirectory (lines 49-52): the prefix concatenated
with std::to_string of the resolved last version index. The source returns
the asset root path joined with this name; the embedding keeps the child
name, the joined path being the fixed root plus this name. -/
def findLastVersionDirectory (fs : AssetRoot) (versionDirectoryName : String) :
    Option String :=
  (findLastVersionIndex fs versionDirectoryName).map
    (fun n => versionDirectoryName ++ natToString n)

/-- The list of indices findLastImageIndex takes the maximum of inside a
version directory: regular files matching the image pattern, parsed. -/
def imageVals (d : DirEnt) : List Nat :=
  (((d.files.filter (fun f => f.isRegularFile)).map (fun f => f.name)).filter
      (fun n => isImage n)).map (fun n => extractImageIndex n)

/-- Embeds findLastImageIndex (lines 54-71): locate the last version
directory, iterate its entries, keep the regular files matching the image
pattern, parse each index and take the maximum. none models every failure
path: no version directory resolved, the resolved name not present as a
directory (the directory iterator would throw), or an empty match set
(undefined maximum). -/
def findLastImageIndex (fs : AssetRoot) (versionDirectoryName : String) : Option Nat :=
  match findLastVersionDirectory fs versionDirectoryName with
  | none => none
  | some dirName =>
    match fs.entries.find? (fun e => e.name == dirName) with
    | none => none
    | some d => if d.isDirectory then rangesMax (imageVals d) else none

/-- Models the assert around std::filesystem::create_directory in main (line
136): creation succeeds, extending the root with a fresh empty directory,
exactly when no child of the root already bears the name; otherwise
create_directory returns false or throws and the process aborts, modelled by
none. -/
def createDirectory (fs : AssetRoot) (name : String) : Option AssetRoot :=
  if fs.entries.any (fun e => e.name == name) then none
  else some ⟨fs.entries ++ [⟨name, true, []⟩]⟩

/-- Outcome of the startup phase of main (lines 128-139), up to entering the
capture loop. -/
inductive StartupResult where
  /-- std::ranges::max over an empty range inside findLastVersionIndex: the
  process dies before creating anything. -/
  | abortNoVersionIndex : StartupResult
  /-- failure inside findLastImageIndex: the process dies before creating
  anything. -/
  | abortNoImageIndex : StartupResult
  /-- the assert around create_directory failed: the process aborts with the
  filesystem still holding only the recorded pre-existing entries. -/
  | abortCreateDirectory (fs : AssetRoot) : StartupResult
  /-- findSafariPID threw: the process aborts, with the recorded filesystem
  already holding the new version directory created on line 136. -/
  | abortNoSafariPID (fs : AssetRoot) : StartupResult
  /-- startup completed: the filesystem holds the newly created version
  directory and the loop starts from the recorded image index. -/
  | ok (fs : AssetRoot) (newVersionDirectoryName : String)
      (versionIndex imageIndex : Nat) : StartupResult
  deriving DecidableEq, Repr

/-- Embeds the startup phase of main (lines 128-139) in source order: resolve
the last version index, resolve the last image index from the prior version
directory, build the new version directory name with the incremented index,
create that directory (aborting on failure), then look for the Safari process
(aborting when absent). safariRunning abstracts whether findSafariPID
succeeds (lines 10-28). -/
def startup (fs : AssetRoot) (versionDirectoryName : String) (safariRunning : Bool) :
    StartupResult :=
  match findLastVersionIndex fs versionDirectoryName with
  | none => .abortNoVersionIndex
  | some versionIndex =>
    match findLastImageIndex fs versionDirectoryName with
    | none => .abortNoImageIndex
    | some imageIndex =>
      match createDirectory fs (versionDirectoryName ++ natToString (versionIndex + 1)) with
      | none => .abortCreateDirectory fs
      | some fs2 =>
        if safariRunning then
          .ok fs2 (versionDirectoryName ++ natToString (versionIndex + 1))
            (versionIndex + 1) imageIndex
        else .abortNoSafariPID fs2

/-- A window of the snapshot returned by the window-list call: the owning
process id and the window title; none records that the window-name attribute
is absent or its conversion to a C string failed, both of which the search
skips. -/
structure WindowInfo where
  ownerPID : Int
  title : Option String
  deriving DecidableEq, Repr

/-- Embeds the window search of the loop body (lines 144-166): scan the
snapshot in order and take the first window whose owner pid equals the target
pid and whose title is present and exactly equals the expected title; every
window failing a check is skipped and the scan moves on. -/
def findTargetWindow (ws : List WindowInfo) (pid : Int) (title : String) :
    Option WindowInfo :=
  ws.find? (fun w => w.ownerPID == pid && w.title == some title)

/-- Mutable state of the capture loop: the image counter (imageIndex in main)
and the last key code returned by the key wait (keyCode in main, initialised
to -1 before the loop). -/
structure LoopState where
  imageIndex : Nat
  keyCode : Int
  deriving DecidableEq, Repr

/-- External events of one captured frame: whether SaveCGImageToPNG reported
success (main discards this return value on line 173) and the key code the
operator pressed at the blocking key wait. -/
structure FrameEvent where
  saveOk : Bool
  key : Int
  deriving DecidableEq, Repr

/-- Record of one file write attempted by the loop body: the consumed image
index, the file name written inside the new version directory, and the
encoder's reported result. -/
structure WriteRec where
  index : Nat
  fileName : String
  ok : Bool
  deriving DecidableEq, Repr

/-- What one iteration of the do-while loop decides to do next. -/
inductive LoopOutcome where
  /-- control reaches the bottom of the loop and runs another iteration. -/
  | next (s : LoopState) : LoopOutcome
  /-- keyCode equals 113, the loop breaks and main returns the given status. -/
  | exited (status : Nat) (s : LoopState) : LoopOutcome
  deriving DecidableEq, Repr

/-- Embeds one iteration of the capture loop (lines 141-188). ws is the
current window snapshot, re-fetched each iteration; ev supplies the frame's
external events, consulted only when the search finds a target window. On a
find, the image index is pre-incremented, the frame is written as that index
dot png regardless of the reported save result, and keyCode is overwritten by
the operator's key; in every case the iteration ends by exiting with status 0
exactly when keyCode equals 113 (lines 184-186, and return 0 on line 190).
Returns the outcome plus the write attempted during the iteration. -/
def loopIter (s : LoopState) (ws : List WindowInfo) (pid : Int) (title : String)
    (ev : FrameEvent) : LoopOutcome × Option WriteRec :=
  match findTargetWindow ws pid title with
  | none => (if s.keyCode = 113 then .exited 0 s else .next s, none)
  | some _ =>
    (if ev.key = 113 then .exited 0 ⟨s.imageIndex + 1, ev.key⟩
     else .next ⟨s.imageIndex + 1, ev.key⟩,
     some ⟨s.imageIndex + 1, natToString (s.imageIndex + 1) ++ ".png", ev.saveOk⟩)

/-- The loop state main enters the loop with: the image index resolved at
startup and keyCode initialised to -1 (line 139). -/
def initialLoopState (imageIndex : Nat) : LoopState := ⟨imageIndex, -1⟩

/-- Spec-side version matcher, written from the specification text rather
than the source: a child matches with value n when it is a directory and its
name is the version prefix followed by one or more decimal digits and nothing
else, the digits denoting n. -/
def MatchesVersionSpec (versionDirectoryName : String) (e : DirEnt) (n : Nat) : Prop :=
  e.isDirectory = true ∧
    ∃ ds : List Char, ds ≠ [] ∧ ds.all Char.isDigit = true ∧
      e.name.data = versionDirectoryName.data ++ ds ∧ digitsToNat ds = n

/-- Spec-side image matcher, written from the specification pattern digits,
escaped literal dot, png: the name is one or more digits, then the four
literal characters dot, p, n, g. -/
def specImageName (name : String) : Bool :=
  decide (5 ≤ name.data.length)
    && (name.data.take (name.data.length - 4)).all Char.isDigit
    && (name.data.drop (name.data.length - 4) == ['.', 'p', 'n', 'g'])

/-! ### Supporting lemmas -/

/-- takeWhile keeps a list all of whose elements satisfy the predicate. -/
theorem takeWhile_of_all {p : Char → Bool} :
    ∀ l : List Char, l.all p = true → l.takeWhile p = l := by
  intro l h
  induction l with
  | nil => rfl
  | cons c cs ih =>
    rw [List.all_cons, Bool.and_eq_true] at h
    simp [List.takeWhile_cons, h.1, ih h.2]

/-- Appending a digit multiplies the value by ten and adds the digit. -/
theorem digitsToNat_concat (cs : List Char) (c : Char) :
    digitsToNat (cs ++ [c]) = 10 * digitsToNat cs + digitVal c := by
  unfold digitsToNat
  rw [List.foldl_append]
  simp only [List.foldl_cons, List.foldl_nil]
  omega

/-- The rendered digit of a value below ten is an ASCII digit. -/
theorem digitChar_isDigit : ∀ m, m < 10 → (Nat.digitChar m).isDigit = true := by
  decide

/-- Rendering a value below ten and reading it back is the identity. -/
theorem digitVal_digitChar : ∀ m, m < 10 → digitVal (Nat.digitChar m) = m := by
  decide

/-- The accumulator of the decimal worker is a suffix of its output. -/
theorem toDecimalCore_append :
    ∀ (fuel n : Nat) (acc : List Char), n < fuel →
      toDecimalCore fuel n acc = toDecimalCore fuel n [] ++ acc := by
  intro fuel
  induction fuel with
  | zero => intro n acc h; omega
  | succ f ih =>
    intro n acc h
    by_cases h10 : n < 10
    · simp [toDecimalCore, h10]
    · have hdiv : n / 10 < f := by
        have := Nat.div_lt_self (n := n) (by omega) (show 1 < 10 by omega)
        omega
      simp only [toDecimalCore, if_neg h10]
      rw [ih (n / 10) _ hdiv, ih (n / 10) (Nat.digitChar (n % 10) :: []) hdiv]
      simp

/-- The decimal worker never returns the empty list on sufficient fuel. -/
theorem toDecimalCore_ne_nil :
    ∀ (fuel n : Nat), n < fuel → toDecimalCore fuel n [] ≠ [] := by
  intro fuel
  induction fuel with
  | zero => intro n h; omega
  | succ f ih =>
    intro n h
    by_cases h10 : n < 10
    · simp [toDecimalCore, h10]
    · have hdiv : n / 10 < f := by
        have := Nat.div_lt_self (n := n) (by omega) (show 1 < 10 by omega)
        omega
      simp only [toDecimalCore, if_neg h10]
      rw [toDecimalCore_append f (n / 10) _ hdiv]
      simp

/-- Every character the decimal worker emits is a digit. -/
theorem toDecimalCore_all_digits :
    ∀ (fuel n : Nat), n < fuel →
      (toDecimalCore fuel n []).all Char.isDigit = true := by
  intro fuel
  induction fuel with
  | zero => intro n h; omega
  | succ f ih =>
    intro n h
    have hm : n % 10 < 10 := Nat.mod_lt _ (by omega)
    by_cases h10 : n < 10
    · simp [toDecimalCore, h10, digitChar_isDigit (n % 10) hm]
    · have hdiv : n / 10 < f := by
        have := Nat.div_lt_self (n := n) (by omega) (show 1 < 10 by omega)
        omega
      simp only [toDecimalCore, if_neg h10]
      rw [toDecimalCore_append f (n / 10) _ hdiv, List.all_append]
      simp [ih (n / 10) hdiv, digitChar_isDigit (n % 10) hm]

/-- Reading back the decimal rendering recovers the value. -/
theorem toDecimalCore_val :
    ∀ (fuel n : Nat), n < fuel → digitsToNat (toDecimalCore fuel n []) = n := by
  intro fuel
  induction fuel with
  | zero => intro n h; omega
  | succ f ih =>
    intro n h
    have hm : n % 10 < 10 := Nat.mod_lt _ (by omega)
    by_cases h10 : n < 10
    · simp only [toDecimalCore, if_pos h10]
      unfold digitsToNat
      simp only [List.foldl_cons, List.foldl_nil]
      rw [Nat.zero_mul, Nat.zero_add, digitVal_digitChar (n % 10) hm]
      omega
    · have hdiv : n / 10 < f := by
        have := Nat.div_lt_self (n := n) (by omega) (show 1 < 10 by omega)
        omega
      simp only [toDecimalCore, if_neg h10]
      rw [toDecimalCore_append f (n / 10) _ hdiv, digitsToNat_concat,
        ih (n / 10) hdiv, digitVal_digitChar (n % 10) hm]
      omega

/-- The characters of a rendered index. -/
theorem natToString_data (n : Nat) :
    (natToString n).data = toDecimalCore (n + 1) n [] := rfl

/-- A rendered index is never the empty string. -/
theorem natToString_data_ne_nil (n : Nat) : (natToString n).data ≠ [] :=
  toDecimalCore_ne_nil (n + 1) n (by omega)

/-- A rendered index consists of digits only. -/
theorem natToString_data_all_digits (n : Nat) :
    (natToString n).data.all Char.isDigit = true :=
  toDecimalCore_all_digits (n + 1) n (by omega)

/-- Reading the rendered index back recovers the index. -/
theorem digitsToNat_natToString (n : Nat) : digitsToNat (natToString n).data = n :=
  toDecimalCore_val (n + 1) n (by omega)

/-- std::stoi of std::to_string is the identity on indices. -/
theorem stoiNat_natToString (n : Nat) : stoiNat (natToString n) = n := by
  unfold stoiNat
  rw [takeWhile_of_all _ (natToString_data_all_digits n), digitsToNat_natToString]

/-- Strings with the same character data are equal. -/
theorem stringDataEq {a b : String} (h : a.data = b.data) : a = b := by
  cases a; cases b; exact congrArg String.mk h

/-- Concatenation of strings concatenates their character data. -/
theorem data_append (a b : String) : (a ++ b).data = a.data ++ b.data := rfl

/-- The executable version matcher agrees with the declarative decomposition
prefix-plus-nonempty-digit-suffix. -/
theorem isVersion_eq_true_iff (v name : String) :
    isVersion v name = true ↔
      ∃ ds : List Char, ds ≠ [] ∧ ds.all Char.isDigit = true ∧
        name.data = v.data ++ ds := by
  unfold isVersion
  constructor
  · intro h
    rw [Bool.and_eq_true, Bool.and_eq_true] at h
    obtain ⟨⟨h1, h2⟩, h3⟩ := h
    rw [beq_iff_eq] at h1
    refine ⟨name.data.drop v.data.length, ?_, h3, ?_⟩
    · intro hnil
      rw [hnil] at h2
      simp at h2
    · conv_lhs => rw [← List.take_append_drop v.data.length name.data]
      rw [h1]
  · rintro ⟨ds, hne, hdig, heq⟩
    rw [heq, List.take_left, List.drop_left]
    simp [hdig, hne]

/-- Extracting the index of a name that decomposes as prefix plus digits
parses exactly those digits. -/
theorem extractVersionIndex_eq (v name : String) (ds : List Char)
    (hdig : ds.all Char.isDigit = true) (heq : name.data = v.data ++ ds) :
    extractVersionIndex v name = digitsToNat ds := by
  unfold extractVersionIndex substrFrom stoiNat
  show digitsToNat ((name.data.drop v.data.length).takeWhile Char.isDigit) = digitsToNat ds
  rw [heq, List.drop_left, takeWhile_of_all _ hdig]

/-- Membership in the list the version resolver maximises over is exactly the
spec-side notion of a matching directory child with that value. -/
theorem mem_versionVals_iff (fs : AssetRoot) (v : String) (n : Nat) :
    n ∈ versionVals fs v ↔ ∃ e ∈ fs.entries, MatchesVersionSpec v e n := by
  unfold versionVals MatchesVersionSpec
  simp only [List.mem_map, List.mem_filter]
  constructor
  · rintro ⟨name, ⟨⟨e, ⟨he, hdir⟩, rfl⟩, hver⟩, rfl⟩
    obtain ⟨ds, hne, hdig, heq⟩ := (isVersion_eq_true_iff v e.name).1 hver
    exact ⟨e, he, hdir, ds, hne, hdig, heq,
      (extractVersionIndex_eq v e.name ds hdig heq).symm⟩
  · rintro ⟨e, he, hdir, ds, hne, hdig, heq, hval⟩
    refine ⟨e.name, ⟨⟨e, ⟨he, hdir⟩, rfl⟩,
      (isVersion_eq_true_iff v e.name).2 ⟨ds, hne, hdig, heq⟩⟩, ?_⟩
    rw [extractVersionIndex_eq v e.name ds hdig heq, hval]

/-- The resolver returns some n exactly when n is a greatest element of the
list of matching parsed indices. -/
theorem findLastVersionIndex_eq_some_iff (fs : AssetRoot) (v : String) (n : Nat) :
    findLastVersionIndex fs v = some n ↔
      n ∈ versionVals fs v ∧ ∀ k ∈ versionVals fs v, k ≤ n := by
  unfold findLastVersionIndex rangesMax
  exact List.max?_eq_some_iff'

/-- A directory named with the successor of the resolved maximum cannot be
among the scanned children: its parsed index would exceed the maximum. -/
theorem no_directory_named_successor (fs : AssetRoot) (v : String) (n : Nat)
    (hv : findLastVersionIndex fs v = some n) :
    ∀ e ∈ fs.entries, e.isDirectory = true → e.name ≠ v ++ natToString (n + 1) := by
  intro e he hdir hname
  have hmem : n + 1 ∈ versionVals fs v := by
    rw [mem_versionVals_iff]
    refine ⟨e, he, hdir, (natToString (n + 1)).data, natToString_data_ne_nil _,
      natToString_data_all_digits _, ?_, digitsToNat_natToString _⟩
    rw [hname]
    rfl
  have hle := ((findLastVersionIndex_eq_some_iff fs v n).1 hv).2 (n + 1) hmem
  omega

/-! ### Claim theorems -/

/-- C1: for every root whose direct children include at least one directory
named prefix followed by one or more decimal digits and nothing else, the
version index resolver returns the maximum integer over exactly those
matching directory children; files, and children whose names are not of that
exact shape, are excluded from consideration. -/
theorem findLastVersionIndex_returns_max (fs : AssetRoot) (v : String)
    (h : fs.entries.any (fun e => e.isDirectory && isVersion v e.name) = true) :
    ∃ n, findLastVersionIndex fs v = some n ∧
      (∃ e ∈ fs.entries, MatchesVersionSpec v e n) ∧
      (∀ e ∈ fs.entries, ∀ k, MatchesVersionSpec v e k → k ≤ n) := by
  rw [List.any_eq_true] at h
  obtain ⟨e, he, hb⟩ := h
  rw [Bool.and_eq_true] at hb
  obtain ⟨ds, hne, hdig, heq⟩ := (isVersion_eq_true_iff v e.name).1 hb.2
  have hmem : extractVersionIndex v e.name ∈ versionVals fs v := by
    rw [mem_versionVals_iff]
    exact ⟨e, he, hb.1, ds, hne, hdig, heq,
      (extractVersionIndex_eq v e.name ds hdig heq).symm⟩
  obtain ⟨n, hn⟩ := Option.isSome_iff_exists.1 (List.isSome_max?_of_mem hmem)
  have hchar := List.max?_eq_some_iff'.1 hn
  refine ⟨n, hn, (mem_versionVals_iff fs v n).1 hchar.1, ?_⟩
  intro e2 he2 k hk
  exact hchar.2 k ((mem_versionVals_iff fs v k).2 ⟨e2, he2, hk⟩)

/-- Witness for C1, on a root holding directories ver1, junk, ver10 and a
regular file named ver2: the resolver must return 10. -/
theorem findLastVersionIndex_returns_max_witness :
    ∃ n, findLastVersionIndex
        ⟨[⟨"ver1", true, []⟩, ⟨"junk", true, []⟩, ⟨"ver10", true, []⟩,
          ⟨"ver2", false, []⟩]⟩ "ver" = some n ∧
      (∃ e ∈ (⟨[⟨"ver1", true, []⟩, ⟨"junk", true, []⟩, ⟨"ver10", true, []⟩,
          ⟨"ver2", false, []⟩]⟩ : AssetRoot).entries, MatchesVersionSpec "ver" e n) ∧
      (∀ e ∈ (⟨[⟨"ver1", true, []⟩, ⟨"junk", true, []⟩, ⟨"ver10", true, []⟩,
          ⟨"ver2", false, []⟩]⟩ : AssetRoot).entries,
        ∀ k, MatchesVersionSpec "ver" e k → k ≤ n) :=
  findLastVersionIndex_returns_max _ "ver" (by decide)

/-- C2: when no direct child of the root is a directory matching the version
pattern, the version resolver yields no value (the process dies on the
undefined maximum); likewise, when the resolved version directory contains no
regular file matching the image pattern, the image resolver yields no value. -/
theorem resolvers_fail_when_nothing_matches (fs : AssetRoot) (v : String) :
    ((∀ e ∈ fs.entries, e.isDirectory = true → isVersion v e.name = false) →
      findLastVersionIndex fs v = none) ∧
    (∀ dirName d, findLastVersionDirectory fs v = some dirName →
      fs.entries.find? (fun e => e.name == dirName) = some d →
      (∀ f ∈ d.files, f.isRegularFile = true → isImage f.name = false) →
      findLastImageIndex fs v = none) := by
  constructor
  · intro h
    have hempty : versionVals fs v = [] := by
      unfold versionVals
      rw [List.map_eq_nil_iff, List.filter_eq_nil_iff]
      intro a ha
      rw [List.mem_map] at ha
      obtain ⟨e, he, rfl⟩ := ha
      rw [List.mem_filter] at he
      rw [h e he.1 he.2]
      simp
    unfold findLastVersionIndex rangesMax
    rw [hempty]
    rfl
  · intro dirName d h1 h2 h3
    simp only [findLastImageIndex, h1, h2]
    by_cases hd : d.isDirectory = true
    · rw [if_pos hd]
      have hempty : imageVals d = [] := by
        unfold imageVals
        rw [List.map_eq_nil_iff, List.filter_eq_nil_iff]
        intro a ha
        rw [List.mem_map] at ha
        obtain ⟨f, hf, rfl⟩ := ha
        rw [List.mem_filter] at hf
        rw [h3 f hf.1 hf.2]
        simp
      rw [hempty]
      rfl
    · rw [if_neg hd]

/-- Witness for C2, on a root with only a non-matching directory (version
half) and on a root whose single version directory holds only foo.txt and
foo.png (image half). -/
theorem resolvers_fail_when_nothing_matches_witness :
    findLastVersionIndex ⟨[⟨"junk", true, []⟩, ⟨"ver", true, []⟩]⟩ "ver" = none ∧
    findLastImageIndex
      ⟨[⟨"ver1", true, [⟨"foo.txt", true⟩, ⟨"foo.png", true⟩]⟩]⟩ "ver" = none :=
  ⟨(resolvers_fail_when_nothing_matches ⟨[⟨"junk", true, []⟩, ⟨"ver", true, []⟩]⟩
      "ver").1 (by decide),
   (resolvers_fail_when_nothing_matches
      ⟨[⟨"ver1", true, [⟨"foo.txt", true⟩, ⟨"foo.png", true⟩]⟩]⟩ "ver").2
      "ver1" ⟨"ver1", true, [⟨"foo.txt", true⟩, ⟨"foo.png", true⟩]⟩
      (by decide) (by decide) (by decide)⟩

/-- C3 (divergence): the image regex in the source leaves its dot unescaped,
so it matches any single character in that position. The filename 1xpng does
not match the documented pattern digits, literal dot, png — yet the source
matcher accepts it and the image resolver counts it, returning 1 instead of
failing on a directory containing only that file. -/
theorem findLastImageIndex_accepts_unescaped_dot :
    specImageName "1xpng" = false ∧ isImage "1xpng" = true ∧
    findLastImageIndex ⟨[⟨"ver1", true, [⟨"1xpng", true⟩]⟩]⟩ "ver" = some 1 := by
  decide

/-- C4: the image counter continues across runs. The starting image index m
is resolved from the prior highest version directory in the startup phase,
before the new version directory is created; startup then creates exactly the
directory prefix followed by n + 1 and enters the loop at counter m, and the
first capture of the run writes the file with index m + 1 inside that new
directory (keyCode starts at -1, and the write happens before the key is
examined, so it occurs whatever the operator then presses). -/
theorem image_counter_continues_across_runs (fs : AssetRoot) (v : String)
    (n m : Nat) (ws : List WindowInfo) (pid : Int) (title : String)
    (w : WindowInfo) (ev : FrameEvent)
    (hv : findLastVersionIndex fs v = some n)
    (hm : findLastImageIndex fs v = some m)
    (hfresh : fs.entries.any (fun e => e.name == v ++ natToString (n + 1)) = false)
    (hw : findTargetWindow ws pid title = some w) :
    startup fs v true =
      .ok ⟨fs.entries ++ [⟨v ++ natToString (n + 1), true, []⟩]⟩
        (v ++ natToString (n + 1)) (n + 1) m ∧
    (loopIter (initialLoopState m) ws pid title ev).2 =
      some ⟨m + 1, natToString (m + 1) ++ ".png", ev.saveOk⟩ := by
  have hc : createDirectory fs (v ++ natToString (n + 1)) =
      some ⟨fs.entries ++ [⟨v ++ natToString (n + 1), true, []⟩]⟩ := by
    unfold createDirectory
    rw [hfresh]
    rfl
  constructor
  · simp only [startup, hv, hm, hc, if_pos]
  · simp only [loopIter, hw, initialLoopState]

/-- Witness for C4, the scenario of the spec: the root holds ver1 with 1.png
and 2.png; the new run creates ver2 and its first capture writes 3.png. -/
theorem image_counter_continues_across_runs_witness :
    startup ⟨[⟨"ver1", true, [⟨"1.png", true⟩, ⟨"2.png", true⟩]⟩]⟩ "ver" true =
      .ok ⟨[⟨"ver1", true, [⟨"1.png", true⟩, ⟨"2.png", true⟩]⟩, ⟨"ver2", true, []⟩]⟩
        "ver2" 2 2 ∧
    (loopIter (initialLoopState 2) [⟨77, some "Poker Now - Poker with Friends"⟩]
        77 "Poker Now - Poker with Friends" ⟨true, 97⟩).2 =
      some ⟨3, "3.png", true⟩ :=
  image_counter_continues_across_runs
    ⟨[⟨"ver1", true, [⟨"1.png", true⟩, ⟨"2.png", true⟩]⟩]⟩ "ver" 1 2
    [⟨77, some "Poker Now - Poker with Friends"⟩] 77
    "Poker Now - Poker with Friends" ⟨77, some "Poker Now - Poker with Friends"⟩
    ⟨true, 97⟩ (by decide) (by decide) (by decide) (by decide)

/-- C5 counterexample: the claim says that when the target process is absent
the startup failure occurs before any directory is created; but main creates
the new version directory on line 136 and only then calls findSafariPID on
line 138. On a root holding ver1 with 1.png and Safari absent, startup aborts
with the process-not-found error while the freshly created directory ver2 is
already present among the root's children. -/
theorem startup_directory_exists_at_pid_failure :
    startup ⟨[⟨"ver1", true, [⟨"1.png", true⟩]⟩]⟩ "ver" false =
      .abortNoSafariPID
        ⟨[⟨"ver1", true, [⟨"1.png", true⟩]⟩, ⟨"ver2", true, []⟩]⟩ ∧
    (⟨[⟨"ver1", true, [⟨"1.png", true⟩]⟩, ⟨"ver2", true, []⟩]⟩ : AssetRoot).entries.any
      (fun e => e.name == "ver2" && e.isDirectory) = true := by
  decide

/-- C5 amended: if the target process is not running at startup, the process
aborts before entering the capture loop, but only after the new version
directory has been created: the PID lookup follows directory creation, so the
new version directory already exists among the root's children when the
process-not-found failure occurs. -/
theorem startup_no_safari_aborts_after_creating_directory (fs : AssetRoot)
    (v : String) (n m : Nat)
    (hv : findLastVersionIndex fs v = some n)
    (hm : findLastImageIndex fs v = some m)
    (hfresh : fs.entries.any (fun e => e.name == v ++ natToString (n + 1)) = false) :
    startup fs v false =
      .abortNoSafariPID ⟨fs.entries ++ [⟨v ++ natToString (n + 1), true, []⟩]⟩ := by
  have hc : createDirectory fs (v ++ natToString (n + 1)) =
      some ⟨fs.entries ++ [⟨v ++ natToString (n + 1), true, []⟩]⟩ := by
    unfold createDirectory
    rw [hfresh]
    rfl
  simp only [startup, hv, hm, hc, Bool.false_eq_true]
  simp

/-- Witness for the amended C5, at the same concrete root. -/
theorem startup_no_safari_aborts_after_creating_directory_witness :
    startup ⟨[⟨"ver1", true, [⟨"1.png", true⟩]⟩]⟩ "ver" false =
      .abortNoSafariPID
        ⟨[⟨"ver1", true, [⟨"1.png", true⟩]⟩, ⟨"ver2", true, []⟩]⟩ :=
  startup_no_safari_aborts_after_creating_directory
    ⟨[⟨"ver1", true, [⟨"1.png", true⟩]⟩]⟩ "ver" 1 1
    (by decide) (by decide) (by decide)

/-- C6: at startup exactly one new version directory is created and it is
named with the prefix followed by one greater than the maximum existing
version index. That name can never collide with a directory already under the
root (its parsed index would exceed the resolved maximum); when creation
succeeds the root gains exactly this one new child, and when creation fails
(the name exists as a non-directory child) the whole process aborts. -/
theorem startup_creates_one_fresh_directory (fs : AssetRoot) (v : String)
    (n m : Nat)
    (hv : findLastVersionIndex fs v = some n)
    (hm : findLastImageIndex fs v = some m) :
    (∀ e ∈ fs.entries, e.isDirectory = true → e.name ≠ v ++ natToString (n + 1)) ∧
    (∀ fs2, createDirectory fs (v ++ natToString (n + 1)) = some fs2 →
      fs2.entries = fs.entries ++ [⟨v ++ natToString (n + 1), true, []⟩] ∧
      startup fs v true = .ok fs2 (v ++ natToString (n + 1)) (n + 1) m) ∧
    (createDirectory fs (v ++ natToString (n + 1)) = none →
      ∀ safariRunning, startup fs v safariRunning = .abortCreateDirectory fs) := by
  refine ⟨no_directory_named_successor fs v n hv, ?_, ?_⟩
  · intro fs2 hc
    have hfs2 : fs2.entries = fs.entries ++ [⟨v ++ natToString (n + 1), true, []⟩] := by
      unfold createDirectory at hc
      by_cases hany : fs.entries.any (fun e => e.name == v ++ natToString (n + 1)) = true
      · rw [if_pos hany] at hc
        exact absurd hc (by simp)
      · rw [if_neg hany] at hc
        cases fs2
        simpa using (Option.some_inj.1 hc).symm
    refine ⟨hfs2, ?_⟩
    simp only [startup, hv, hm, hc, if_pos]
  · intro hc safariRunning
    simp only [startup, hv, hm, hc]

/-- Witness for C6: root holding ver1 with 1.png; the fresh name is ver2. -/
theorem startup_creates_one_fresh_directory_witness :
    (∀ e ∈ (⟨[⟨"ver1", true, [⟨"1.png", true⟩]⟩]⟩ : AssetRoot).entries,
      e.isDirectory = true → e.name ≠ "ver" ++ natToString 2) ∧
    (∀ fs2, createDirectory ⟨[⟨"ver1", true, [⟨"1.png", true⟩]⟩]⟩
        ("ver" ++ natToString 2) = some fs2 →
      fs2.entries = [⟨"ver1", true, [⟨"1.png", true⟩]⟩] ++
        [⟨"ver" ++ natToString 2, true, []⟩] ∧
      startup ⟨[⟨"ver1", true, [⟨"1.png", true⟩]⟩]⟩ "ver" true =
        .ok fs2 ("ver" ++ natToString 2) 2 1) ∧
    (createDirectory ⟨[⟨"ver1", true, [⟨"1.png", true⟩]⟩]⟩
        ("ver" ++ natToString 2) = none →
      ∀ safariRunning, startup ⟨[⟨"ver1", true, [⟨"1.png", true⟩]⟩]⟩ "ver"
        safariRunning = .abortCreateDirectory ⟨[⟨"ver1", true, [⟨"1.png", true⟩]⟩]⟩) :=
  startup_creates_one_fresh_directory ⟨[⟨"ver1", true, [⟨"1.png", true⟩]⟩]⟩
    "ver" 1 1 (by decide) (by decide)

/-- C7: at the key wait following a capture, key code 113 makes the loop
break and the process return status 0, while any other key code leads to
another loop iteration (the state machine returns to Searching) with no
exit. -/
theorem awaiting_input_key_handling (s : LoopState) (ws : List WindowInfo)
    (pid : Int) (title : String) (ev : FrameEvent) (w : WindowInfo)
    (hw : findTargetWindow ws pid title = some w) :
    (ev.key = 113 →
      (loopIter s ws pid title ev).1 = .exited 0 ⟨s.imageIndex + 1, 113⟩) ∧
    (ev.key ≠ 113 →
      (loopIter s ws pid title ev).1 = .next ⟨s.imageIndex + 1, ev.key⟩) := by
  constructor
  · intro h
    simp [loopIter, hw, h]
  · intro h
    simp [loopIter, hw, h]

/-- Witness for C7: pressing q (113) exits with status 0, pressing a (97)
loops again. -/
theorem awaiting_input_key_handling_witness :
    (loopIter ⟨5, -1⟩ [⟨7, some "T"⟩] 7 "T" ⟨true, 113⟩).1 = .exited 0 ⟨6, 113⟩ ∧
    (loopIter ⟨5, -1⟩ [⟨7, some "T"⟩] 7 "T" ⟨true, 97⟩).1 = .next ⟨6, 97⟩ :=
  ⟨(awaiting_input_key_handling ⟨5, -1⟩ [⟨7, some "T"⟩] 7 "T" ⟨true, 113⟩
      ⟨7, some "T"⟩ (by decide)).1 rfl,
   (awaiting_input_key_handling ⟨5, -1⟩ [⟨7, some "T"⟩] 7 "T" ⟨true, 97⟩
      ⟨7, some "T"⟩ (by decide)).2 (by decide)⟩

/-- C8: on an iteration where no window owned by the target process bears the
expected title, the image counter is unchanged at the end of the iteration,
nothing is written, and the loop continues to the next iteration rather than
exiting. The hypothesis on keyCode holds at every reachable iteration entry:
keyCode starts at -1, and an iteration whose outcome is another iteration
never leaves 113 in keyCode. -/
theorem no_window_match_leaves_counter_unchanged (s : LoopState)
    (ws : List WindowInfo) (pid : Int) (title : String) (ev : FrameEvent)
    (hk : s.keyCode ≠ 113)
    (hnw : ∀ w ∈ ws, ¬(w.ownerPID = pid ∧ w.title = some title)) :
    loopIter s ws pid title ev = (.next s, none) := by
  have hfind : findTargetWindow ws pid title = none := by
    unfold findTargetWindow
    rw [List.find?_eq_none]
    intro w hw hbeq
    rw [Bool.and_eq_true, beq_iff_eq, beq_iff_eq] at hbeq
    exact hnw w hw hbeq
  simp [loopIter, hfind, hk]

/-- Witness for C8: a snapshot holding a same-pid window with no title, a
same-pid window with another title and an other-pid window with the right
title produces no capture and no exit. -/
theorem no_window_match_leaves_counter_unchanged_witness :
    loopIter ⟨5, 97⟩ [⟨7, none⟩, ⟨7, some "Other"⟩, ⟨8, some "T"⟩] 7 "T"
      ⟨true, 113⟩ = (.next ⟨5, 97⟩, none) :=
  no_window_match_leaves_counter_unchanged ⟨5, 97⟩
    [⟨7, none⟩, ⟨7, some "Other"⟩, ⟨8, some "T"⟩] 7 "T" ⟨true, 113⟩
    (by decide) (by decide)

/-- C9: when the PNG write of a captured frame reports failure, the
pre-incremented image index is still consumed: the write record carries the
new index with the failure flag, the counter keeps the incremented value, the
loop is not halted, and the next capture writes under the strictly greater
next index whatever its own save result. -/
theorem failed_save_still_consumes_index (s : LoopState)
    (ws ws2 : List WindowInfo) (pid : Int) (title : String)
    (ev ev2 : FrameEvent) (w w2 : WindowInfo)
    (hw : findTargetWindow ws pid title = some w)
    (hfail : ev.saveOk = false) (hk : ev.key ≠ 113)
    (hw2 : findTargetWindow ws2 pid title = some w2) :
    loopIter s ws pid title ev =
      (.next ⟨s.imageIndex + 1, ev.key⟩,
        some ⟨s.imageIndex + 1, natToString (s.imageIndex + 1) ++ ".png", false⟩) ∧
    (loopIter ⟨s.imageIndex + 1, ev.key⟩ ws2 pid title ev2).2 =
      some ⟨s.imageIndex + 1 + 1, natToString (s.imageIndex + 1 + 1) ++ ".png",
        ev2.saveOk⟩ ∧
    s.imageIndex + 1 < s.imageIndex + 1 + 1 := by
  refine ⟨?_, ?_, by omega⟩
  · simp [loopIter, hw, hfail, hk]
  · simp [loopIter, hw2]

/-- Witness for C9: a failed write at index 3 is followed by a successful
write at index 4. -/
theorem failed_save_still_consumes_index_witness :
    loopIter ⟨2, -1⟩ [⟨7, some "T"⟩] 7 "T" ⟨false, 97⟩ =
      (.next ⟨3, 97⟩, some ⟨3, natToString 3 ++ ".png", false⟩) ∧
    (loopIter ⟨3, 97⟩ [⟨7, some "T"⟩] 7 "T" ⟨true, 97⟩).2 =
      some ⟨4, natToString 4 ++ ".png", true⟩ ∧
    (3 : Nat) < 4 :=
  failed_save_still_consumes_index ⟨2, -1⟩ [⟨7, some "T"⟩] [⟨7, some "T"⟩] 7 "T"
    ⟨false, 97⟩ ⟨true, 97⟩ ⟨7, some "T"⟩ ⟨7, some "T"⟩
    (by decide) rfl (by decide) (by decide)

/-- C10 counterexample: on a root whose only matching directory is ver03, the
resolver parses the suffix to 3 but renders the result back as ver3, a name
that exists nowhere under the root — the returned path does not name a
scanned directory, refuting the round-trip claim as stated. -/
theorem findLastVersionDirectory_leading_zero_mismatch :
    findLastVersionDirectory ⟨[⟨"ver03", true, []⟩]⟩ "ver" = some "ver3" ∧
    (⟨[⟨"ver03", true, []⟩]⟩ : AssetRoot).entries.any
      (fun e => e.name == "ver3") = false := by
  decide

/-- C10 amended: when every matching directory child carries its index in
canonical decimal form (its digit suffix equals the rendering of its own
value, i.e. no leading zeros), the path returned by findLastVersionDirectory
names one of the directories the resolver scanned: a directory child of the
root that matches the pattern and bears exactly the returned name. -/
theorem findLastVersionDirectory_names_scanned_directory (fs : AssetRoot)
    (v : String) (d : String)
    (hcanon : ∀ e ∈ fs.entries, e.isDirectory = true → isVersion v e.name = true →
      e.name.data.drop v.data.length =
        (natToString (digitsToNat (e.name.data.drop v.data.length))).data)
    (hd : findLastVersionDirectory fs v = some d) :
    ∃ e ∈ fs.entries, e.isDirectory = true ∧ isVersion v e.name = true ∧
      e.name = d := by
  unfold findLastVersionDirectory at hd
  cases hn : findLastVersionIndex fs v with
  | none => rw [hn] at hd; exact absurd hd (by simp)
  | some n =>
    rw [hn] at hd
    rw [Option.map_some', Option.some_inj] at hd
    have hmem : n ∈ versionVals fs v :=
      ((findLastVersionIndex_eq_some_iff fs v n).1 hn).1
    obtain ⟨e, he, hdir, ds, hne, hdig, heq, hval⟩ :=
      (mem_versionVals_iff fs v n).1 hmem
    have hver : isVersion v e.name = true :=
      (isVersion_eq_true_iff v e.name).2 ⟨ds, hne, hdig, heq⟩
    have hdrop : e.name.data.drop v.data.length = ds := by
      rw [heq, List.drop_left]
    have hcanon2 := hcanon e he hdir hver
    rw [hdrop, hval] at hcanon2
    refine ⟨e, he, hdir, hver, ?_⟩
    rw [← hd]
    apply stringDataEq
    rw [heq, hcanon2]
    rfl

/-- Witness for the amended C10: with canonical names ver1 and ver2 the
returned path ver2 is a scanned directory. -/
theorem findLastVersionDirectory_names_scanned_directory_witness :
    ∃ e ∈ (⟨[⟨"ver1", true, []⟩, ⟨"ver2", true, []⟩]⟩ : AssetRoot).entries,
      e.isDirectory = true ∧ isVersion "ver" e.name = true ∧ e.name = "ver2" :=
  findLastVersionDirectory_names_scanned_directory
    ⟨[⟨"ver1", true, []⟩, ⟨"ver2", true, []⟩]⟩ "ver" "ver2"
    (by decide) (by decide)

end Oraker
